import Mathlib

/-!
# yt-transcript-service: the `POST /api/fetch-transcript` handler

A shallow embedding of `server.js`.  The handler is sequential orchestration of
external tools, so everything outside the process (the file system, the
`yt-dlp` child process, the environment and the transcription service) is
gathered in a `World` record of outcomes, and the handler is a pure function
from a world and a request to the HTTP response, the ordered list of external
effects it performed, and the scratch files left on disk.
-/

set_option autoImplicit false

namespace YtTranscript

/-! ## JavaScript values and string methods -/

/-- JavaScript values, as far as the handler tells them apart.  `object` stands
for any non-null object or array; of the numbers the integers are enough, since
the handler only tests a number for truthiness and type. -/
inductive JsVal where
  | undefined
  | null
  | bool (b : Bool)
  | num (n : Int)
  | str (s : String)
  | object
  deriving DecidableEq

/-- Truthiness, the test behind `!v` and `if (v)`. -/
def truthy : JsVal → Bool
  | .undefined => false
  | .null => false
  | .bool b => b
  | .num n => n != 0
  | .str s => s != ""
  | .object => true

/-- The `typeof` operator. -/
def typeOf : JsVal → String
  | .undefined => "undefined"
  | .null => "object"
  | .bool _ => "boolean"
  | .num _ => "number"
  | .str _ => "string"
  | .object => "object"

/-- Substring search on character lists: does `pat` occur somewhere in the text. -/
def includesChars (pat : List Char) : List Char → Bool
  | [] => pat.isEmpty
  | c :: cs => pat.isPrefixOf (c :: cs) || includesChars pat cs

/-- The method `String.prototype.includes`. -/
def includes (s pat : String) : Bool := includesChars pat.data s.data

/-- The method `String.prototype.startsWith`. -/
def startsWith (s pat : String) : Bool := pat.data.isPrefixOf s.data

/-- The method `String.prototype.endsWith`. -/
def endsWith (s pat : String) : Bool := pat.data.isSuffixOf s.data

/-! ## `path.join` (POSIX) -/

namespace path

/-- Cut a path at every `/`; the pieces may be empty. -/
def splitSep : List Char → List (List Char)
  | [] => [[]]
  | c :: cs =>
    if c = '/' then [] :: splitSep cs
    else
      match splitSep cs with
      | [] => [[c]]
      | seg :: rest => (c :: seg) :: rest

/-- Node's `normalizeString`, on segments: empty and `.` segments are dropped,
`..` removes the segment before it (or is kept when there is none and the path
is relative).  `acc` is the result so far, last segment first. -/
def normalizeSegs (allowAboveRoot : Bool) : List (List Char) → List (List Char) → List (List Char)
  | acc, [] => acc.reverse
  | acc, seg :: segs =>
    if seg = [] ∨ seg = ['.'] then normalizeSegs allowAboveRoot acc segs
    else if seg = ['.', '.'] then
      match acc with
      | last :: before =>
        if last = ['.', '.'] then
          normalizeSegs allowAboveRoot (if allowAboveRoot then seg :: acc else acc) segs
        else normalizeSegs allowAboveRoot before segs
      | [] => normalizeSegs allowAboveRoot (if allowAboveRoot then [seg] else []) segs
    else normalizeSegs allowAboveRoot (seg :: acc) segs

/-- Glue segments with `/` between them. -/
def joinSegs : List (List Char) → List Char
  | [] => []
  | [seg] => seg
  | seg :: segs => seg ++ '/' :: joinSegs segs

/-- Node's `path.posix.normalize`, on characters. -/
def normalizeChars (p : List Char) : List Char :=
  if p = [] then ['.']
  else
    let isAbsolute := p.head? = some '/'
    let trailingSeparator := p.getLast? = some '/'
    let q := joinSegs (normalizeSegs (!isAbsolute) [] (splitSep p))
    if q = [] then
      if isAbsolute then ['/'] else if trailingSeparator then ['.', '/'] else ['.']
    else
      let q := if trailingSeparator then q ++ ['/'] else q
      if isAbsolute then '/' :: q else q

/-- Node's `path.posix.join`: the non-empty arguments glued with `/`, normalized. -/
def join (args : List String) : String :=
  ⟨normalizeChars (joinSegs ((args.filter (fun a => a != "")).map String.data))⟩

end path

/-! ## Errors, effects, responses -/

/-- What `sendError` reads off a thrown value. -/
structure JsError where
  message : String
  stderr : Option String
  stdout : Option String
  responseData : Option String
  deriving DecidableEq

/-- The three console channels the server writes to. -/
inductive Level where
  | log
  | warn
  | error
  deriving DecidableEq

/-- The parameters of one `openai.audio.transcriptions.create` call;
`temperature` is kept as the decimal text of the source. -/
structure TranscriptionParams where
  file : String
  model : String
  response_format : String
  temperature : String
  deriving DecidableEq

/-- An external effect of the handler, in the order it happens. -/
inductive Effect where
  | console (level : Level) (args : List JsVal)
  | existsSync (dir : String)
  | mkdirSync (dir : String)
  | execFile (file : String) (args : List String) (maxBuffer : Nat)
  | readdirSync (dir : String)
  | transcribe (params : TranscriptionParams)
  | unlinkSync (file : String)
  deriving DecidableEq

/-- An HTTP response: status code and the JSON object of the body. -/
structure Response where
  status : Nat
  body : List (String × JsVal)
  deriving DecidableEq

/-- The call `res.status(status).json(obj)`: `JSON.stringify` leaves out the
properties whose value is `undefined`. -/
def json (status : Nat) (obj : List (String × JsVal)) : Response :=
  ⟨status, obj.filter (fun kv => kv.2 != JsVal.undefined)⟩

/-- Console lines for an optional, possibly empty, text property of an error. -/
def logField (title : String) : Option String → List Effect
  | some s => if s != "" then [Effect.console .error [.str title, .str s]] else []
  | none => []

/-- The function `sendError(res, label, err)`: the diagnostic detail goes to the
console, the response carries the label only. -/
def sendError (label : String) (err : Option JsError) : List Effect × Response :=
  let detail : List Effect :=
    match err with
    | none => []
    | some e =>
      [Effect.console .error [.str "Message:", if e.message != "" then .str e.message else .object]]
        ++ logField "Stderr:" e.stderr
        ++ logField "Stdout:" e.stdout
        ++ logField "OpenAI response data:" e.responseData
  (Effect.console .error [.str ("\n[ERROR] " ++ label)] :: detail, json 500 [("error", .str label)])

/-! ## The world outside the handler -/

/-- How the `yt-dlp` child process ends: `spawnError` is every failure that is
not an exit code (the binary cannot be started, the child is killed, the output
exceeds `maxBuffer`). -/
inductive ProcOutcome where
  | spawnError (err : JsError)
  | exited (code : Nat) (stdout stderr : String)
  deriving DecidableEq

/-- The promisified `execFile`: resolves with the captured output on exit code
zero, rejects when the process cannot be run or exits non-zero. -/
def execFileAsync (file : String) (args : List String) : ProcOutcome → Except JsError (String × String)
  | .spawnError err => .error err
  | .exited 0 stdout stderr => .ok (stdout, stderr)
  | .exited (_ + 1) stdout stderr =>
    .error ⟨"Command failed: " ++ " ".intercalate (file :: args) ++ "\n" ++ stderr, some stderr, some stdout, none⟩

/-- What the transcription service resolves with: `null`/`undefined`, or a value
whose `text` property reads as `text`. -/
inductive ServiceReply where
  | nullish
  | value (text : JsVal)
  deriving DecidableEq

/-- Everything the handler observes from outside during one request. -/
structure World where
  /-- Result of `fs.existsSync(outputDir)`. -/
  tmpExists : Bool
  /-- The error `fs.mkdirSync(outputDir)` throws, if it is called and throws. -/
  mkdirError : Option JsError
  /-- How the downloader ends, if it is run. -/
  ytdlp : ProcOutcome
  /-- Entry names of the scratch directory once the downloader is done, in the
  order `fs.readdirSync` lists them. -/
  scratch : List String
  /-- The error `fs.readdirSync(outputDir)` throws, if it throws. -/
  readdirError : Option JsError
  /-- The variable `process.env.OPENAI_API_KEY`. -/
  OPENAI_API_KEY : Option String
  /-- Outcome of `openai.audio.transcriptions.create`, if it is called. -/
  transcription : Except JsError ServiceReply
  /-- The error `fs.unlinkSync(latestFile)` throws, if it throws; the file then
  stays where it is. -/
  unlinkError : Option JsError

/-- An incoming request: the parsed JSON body, if any. -/
structure Request where
  body : Option (List (String × JsVal))

/-- The destructuring `const \x7b videoUrl \x7d = req.body || \x7b\x7d`. -/
def Request.videoUrl (req : Request) : JsVal :=
  match req.body with
  | none => .undefined
  | some obj => (obj.lookup "videoUrl").getD .undefined

/-- Result of handling one request. -/
structure Outcome where
  /-- The HTTP response sent. -/
  response : Response
  /-- External effects, oldest first. -/
  effects : List Effect
  /-- Paths of the scratch files present when the handler is done. -/
  disk : List String

/-! ## The handler -/

/-- The constant `YTDLP_PATH`. -/
def YTDLP_PATH : String := "/opt/homebrew/bin/yt-dlp"

/-- The constant `outputDir` of the handler. -/
def outputDir : String := "./tmp"

/-- The constant `outTemplate`: the output template handed to `yt-dlp`. -/
def outTemplate : String := path.join [outputDir, "audio-%(id)s.%(ext)s"]

/-- The `files` filter of the handler: listed names that start with `audio-`
and do not end with `.part`. -/
def files (listing : List String) : List String :=
  listing.filter (fun f => startsWith f "audio-" && !endsWith f ".part")

/-- Truthiness of an environment variable: unset and empty are both falsy. -/
def envTruthy : Option String → Bool
  | none => false
  | some s => s != ""

/-- Scratch-directory preparation (the first `try`): the effects, and the error
response if `mkdirSync` throws. -/
def prepareDir (w : World) : List Effect × Option Response :=
  if !w.tmpExists then
    match w.mkdirError with
    | none =>
      ([.existsSync outputDir, .mkdirSync outputDir,
        .console .log [.str "[INFO] Created tmp directory"]], none)
    | some err =>
      ([.existsSync outputDir, .mkdirSync outputDir]
        ++ (sendError "Could not create tmp directory on the server." (some err)).1,
       some (sendError "Could not create tmp directory on the server." (some err)).2)
  else ([.existsSync outputDir], none)

/-- Step 1 (the second `try`): run `yt-dlp`, list the scratch directory, pick
`latestFile`.  Gives the effects and either the error response or `latestFile`. -/
def download (w : World) (videoUrl : String) : List Effect × Except Response String :=
  let args := ["-f", "bestaudio", "-o", outTemplate, videoUrl]
  let fx : List Effect :=
    [.console .log [.str "[INFO] Running yt-dlp to download bestaudio (no postprocessing)..."],
     .execFile YTDLP_PATH args (1024 * 1024 * 10)]
  let failed := "Audio download failed. Check yt-dlp is installed and the video is accessible."
  match execFileAsync YTDLP_PATH args w.ytdlp with
  | .error err => (fx ++ (sendError failed (some err)).1, .error (sendError failed (some err)).2)
  | .ok (stdout, stderr) =>
    let fx := fx ++ [.console .log [.str "[INFO] yt-dlp stdout:", .str stdout]]
      ++ (if stderr != "" then [Effect.console .log [.str "[INFO] yt-dlp stderr:", .str stderr]] else [])
      ++ [.readdirSync outputDir]
    match w.readdirError with
    | some err => (fx ++ (sendError failed (some err)).1, .error (sendError failed (some err)).2)
    | none =>
      let fs := files w.scratch
      if h : fs.length = 0 then
        (fx ++ (sendError "Audio download failed: no audio files found." none).1,
         .error (sendError "Audio download failed: no audio files found." none).2)
      else
        let latestFile := path.join [outputDir, fs.get ⟨fs.length - 1, by omega⟩]
        (fx ++ [.console .log [.str "[INFO] Using audio file:", .str latestFile]], .ok latestFile)

/-- Step 2, the `try` and `catch` blocks: the credential check and the call to
the transcription service.  Gives the effects and either the error response or
the service reply. -/
def transcribeTry (w : World) (latestFile : String) : List Effect × Except Response ServiceReply :=
  if !envTruthy w.OPENAI_API_KEY then
    ((sendError "OPENAI_API_KEY is not set on the server. Add it and redeploy." none).1,
     .error (sendError "OPENAI_API_KEY is not set on the server. Add it and redeploy." none).2)
  else
    let fx : List Effect :=
      [.console .log [.str "[INFO] Sending audio to OpenAI for transcription..."],
       .transcribe ⟨latestFile, "gpt-4o-mini-transcribe", "json", "0.2"⟩]
    match w.transcription with
    | .ok reply => (fx ++ [.console .log [.str "[INFO] Transcription received from OpenAI."]], .ok reply)
    | .error err =>
      (fx ++ (sendError "OpenAI transcription failed. Check your API key and model." (some err)).1,
       .error (sendError "OpenAI transcription failed. Check your API key and model." (some err)).2)

/-- Step 2, the `finally` block: delete `latestFile`; a failure is logged and
swallowed.  Gives the effects and the scratch files left. -/
def cleanup (w : World) (latestFile : String) (disk : List String) : List Effect × List String :=
  if latestFile != "" then
    match w.unlinkError with
    | none =>
      ([.unlinkSync latestFile, .console .log [.str "[INFO] Deleted temp file:", .str latestFile]],
       disk.filter (fun p => p != latestFile))
    | some e =>
      ([.unlinkSync latestFile,
        .console .warn [.str "[WARN] Could not delete temp file:",
          if e.message != "" then .str e.message else .object]],
       disk)
  else ([], disk)

/-- The last `try`: send `transcription.text`; reading `text` off `null` or
`undefined` throws a `TypeError`, which is caught. -/
def respond : ServiceReply → List Effect × Response
  | .value text => ([], json 200 [("transcript", text)])
  | .nullish =>
    sendError "Failed to send transcript response."
      (some ⟨"Cannot read properties of undefined (reading text)", none, none, none⟩)

/-- Paths of the scratch files the world holds, before any deletion. -/
def scratchPaths (w : World) : List String := w.scratch.map (fun f => path.join [outputDir, f])

/-- The handler from the point where `videoUrl` has passed validation. -/
def pipeline (w : World) (videoUrl : String) (fx0 : List Effect) (disk0 : List String) : Outcome :=
  match prepareDir w with
  | (fx1, some res) => ⟨res, fx0 ++ fx1, disk0⟩
  | (fx1, none) =>
    match download w videoUrl with
    | (fx2, .error res) => ⟨res, fx0 ++ fx1 ++ fx2, disk0⟩
    | (fx2, .ok latestFile) =>
      match transcribeTry w latestFile with
      | (fx3, .error res) =>
        ⟨res, fx0 ++ fx1 ++ fx2 ++ fx3 ++ (cleanup w latestFile disk0).1, (cleanup w latestFile disk0).2⟩
      | (fx3, .ok reply) =>
        ⟨(respond reply).2,
         fx0 ++ fx1 ++ fx2 ++ fx3 ++ (cleanup w latestFile disk0).1 ++ (respond reply).1,
         (cleanup w latestFile disk0).2⟩

/-- The route `app.post("/api/fetch-transcript", ...)`. -/
def handler (w : World) (req : Request) : Outcome :=
  let videoUrl := req.videoUrl
  let fx0 : List Effect :=
    [.console .log [.str "\n[INFO] /api/fetch-transcript called with:", videoUrl]]
  let disk0 := scratchPaths w
  if !truthy videoUrl || typeOf videoUrl != "string" then
    ⟨json 400 [("error", .str "videoUrl is required")], fx0, disk0⟩
  else
    match videoUrl with
    | .str url =>
      if !includes url "youtube.com" && !includes url "youtu.be" then
        ⟨json 400 [("error", .str "Please send a valid YouTube URL.")], fx0, disk0⟩
      else pipeline w url fx0 disk0
    -- not reached: `typeOf` gives "string" for `str` only
    | _ => ⟨json 400 [("error", .str "videoUrl is required")], fx0, disk0⟩

/-! ## What an outcome shows -/

/-- Every effect but console output is a call to the world outside. -/
def Effect.isCall : Effect → Bool
  | .console _ _ => false
  | _ => true

/-- The calls to the outside among some effects, console output left out. -/
def calls (fx : List Effect) : List Effect := fx.filter Effect.isCall

/-- The argument list of a downloader invocation. -/
def execTarget : Effect → Option (List String)
  | .execFile _ args _ => some args
  | _ => none

/-- The file of a transcription call. -/
def uploadTarget : Effect → Option String
  | .transcribe params => some params.file
  | _ => none

/-- The file of a deletion. -/
def unlinkTarget : Effect → Option String
  | .unlinkSync file => some file
  | _ => none

/-- The downloader invocations of a request, by argument list. -/
def Outcome.execs (o : Outcome) : List (List String) := (calls o.effects).filterMap execTarget

/-- The files sent to the transcription service during a request. -/
def Outcome.uploads (o : Outcome) : List String := (calls o.effects).filterMap uploadTarget

/-- The files the handler asked the file system to delete during a request. -/
def Outcome.deletions (o : Outcome) : List String := (calls o.effects).filterMap unlinkTarget

/-- The body `\x7berror: label\x7d`. -/
def errorBody (label : String) : List (String × JsVal) := [("error", .str label)]

/-- The label of a failed downloader run or a failed listing. -/
def downloadFailed : String :=
  "Audio download failed. Check yt-dlp is installed and the video is accessible."

/-- The input class of the first validation property: `videoUrl` is missing, not
a string, the empty string, or a string with neither host substring. -/
def lacksVideoHost : JsVal → Prop
  | .str s => s = "" ∨ (includes s "youtube.com" = false ∧ includes s "youtu.be" = false)
  | _ => True

instance (v : JsVal) : Decidable (lacksVideoHost v) := by
  cases v <;> unfold lacksVideoHost <;> infer_instance

/-- The host substring test of the handler holds for `url`. -/
def hasVideoHost (url : String) : Prop :=
  includes url "youtube.com" = true ∨ includes url "youtu.be" = true

instance (url : String) : Decidable (hasVideoHost url) := by
  unfold hasVideoHost; infer_instance

/-- The downloader run throws or exits non-zero. -/
def ProcOutcome.failed : ProcOutcome → Bool
  | .spawnError _ => true
  | .exited code _ _ => code != 0

/-- The listing filter of the handler, as a predicate on one name. -/
def isAudioFile (f : String) : Prop := startsWith f "audio-" = true ∧ endsWith f ".part" = false

instance (f : String) : Decidable (isAudioFile f) := by
  unfold isAudioFile; infer_instance

/-- The labels the handler passes to `sendError`, in source order. -/
def errorLabels : List String :=
  ["Could not create tmp directory on the server.",
   "Audio download failed: no audio files found.",
   "Audio download failed. Check yt-dlp is installed and the video is accessible.",
   "OPENAI_API_KEY is not set on the server. Add it and redeploy.",
   "OpenAI transcription failed. Check your API key and model.",
   "Failed to send transcript response."]

/-- The scratch file the handler takes into the transcription step, if the
request gets that far: the directory step and the download step both pass. -/
def selectedFile (w : World) (url : String) : Option String :=
  match (prepareDir w).2, (download w url).2 with
  | none, .ok latestFile => some latestFile
  | _, _ => none

/-! ## Worlds that differ in error detail only -/

/-- An error object with nothing in it. -/
def blankError : JsError := ⟨"", none, none, none⟩

/-- The world with every piece of diagnostic detail wiped: the content of each
thrown value, the exit code and captured output of a failed downloader, the
captured output of a successful one.  Which calls fail is kept. -/
def redact (w : World) : World where
  tmpExists := w.tmpExists
  mkdirError := w.mkdirError.map (fun _ => blankError)
  ytdlp := if w.ytdlp.failed then .spawnError blankError else .exited 0 "" ""
  scratch := w.scratch
  readdirError := w.readdirError.map (fun _ => blankError)
  OPENAI_API_KEY := w.OPENAI_API_KEY
  transcription :=
    match w.transcription with
    | .ok reply => .ok reply
    | .error _ => .error blankError
  unlinkError := w.unlinkError.map (fun _ => blankError)

/-! ## The host of a URL, as the specification words it -/

/-- The text after the first `://` of a URL, if there is one. -/
def afterScheme : List Char → Option (List Char)
  | [] => none
  | c :: cs => if [':', '/', '/'].isPrefixOf (c :: cs) then some (cs.drop 2) else afterScheme cs

/-- Follows the specification's wording, not the source: the host of a URL, that
is the authority after the scheme, without user information and port. -/
def specUrlHost (url : String) : Option String :=
  (afterScheme url.data).map fun rest =>
    let authority := rest.takeWhile (fun c => c != '/' && c != '?' && c != '#')
    let hostPort := (authority.reverse.takeWhile (fun c => c != '@')).reverse
    ⟨hostPort.takeWhile (fun c => c != ':')⟩

/-- Follows the specification's wording, not the source: a host of the allowed
video-hosting domain set is `youtube.com`, `youtu.be` or a subdomain of either. -/
def specHostAllowed (host : String) : Bool :=
  host == "youtube.com" || host == "youtu.be"
    || endsWith host ".youtube.com" || endsWith host ".youtu.be"

/-! ## Sample worlds -/

/-- A thrown value with a message and nothing else. -/
def plainError (message : String) : JsError := ⟨message, none, none, none⟩

/-- The end-to-end world of the specification: the directory exists, the
downloader leaves `audio-abc123.m4a`, the service answers `hello world`. -/
def happyWorld : World where
  tmpExists := true
  mkdirError := none
  ytdlp := .exited 0 "[download] 100%" ""
  scratch := ["audio-abc123.m4a"]
  readdirError := none
  OPENAI_API_KEY := some "sk-test"
  transcription := .ok (.value (.str "hello world"))
  unlinkError := none

/-- A request whose body is an object with the one property `videoUrl`. -/
def requestFor (videoUrl : JsVal) : Request := ⟨some [("videoUrl", videoUrl)]⟩

/-- The end-to-end world, except that the downloader exits with code 1. -/
def downloadFailsWorld : World :=
  { happyWorld with ytdlp := .exited 1 "" "ERROR: [youtube] abc123: Video unavailable" }

/-- The end-to-end world, except that the downloader leaves only a partial file. -/
def noAudioWorld : World :=
  { happyWorld with scratch := ["audio-abc123.m4a.part", "notes.txt"] }

/-- The request of the end-to-end example. -/
def sampleRequest : Request := requestFor (.str "https://youtu.be/abc123")

/-- The end-to-end world with the scratch directory missing and not creatable. -/
def dirFailsWorld : World :=
  { happyWorld with
    tmpExists := false
    mkdirError := some (plainError "EACCES: permission denied, mkdir tmp") }

/-- The end-to-end world without the transcription credential. -/
def noKeyWorld : World := { happyWorld with OPENAI_API_KEY := none }

/-- A world without the credential in which the downloader fails as well. -/
def noKeyDownloadFailsWorld : World := { downloadFailsWorld with OPENAI_API_KEY := none }

/-- The end-to-end world with the transcription service rejecting the call. -/
def transcriptionFailsWorld : World :=
  { happyWorld with
    transcription := .error ⟨"401 Incorrect API key provided", none, none, some "invalid_api_key"⟩ }

/-- The end-to-end world with the transcription service resolving to `null`. -/
def nullReplyWorld : World := { happyWorld with transcription := .ok .nullish }

/-- The end-to-end world in which deleting the scratch file fails. -/
def unlinkFailsWorld : World :=
  { happyWorld with unlinkError := some (plainError "EPERM: operation not permitted, unlink") }

/-- A world whose downloader cannot be started at all. -/
def spawnFailsWorld : World :=
  { happyWorld with ytdlp := .spawnError (plainError "spawn /opt/homebrew/bin/yt-dlp ENOENT") }

/-- A world whose listing has several matching names, an older download first. -/
def crowdedWorld : World :=
  { happyWorld with
    scratch := ["audio-old.webm", "notes.txt", "audio-abc123.m4a", "audio-zzz.m4a.part"] }

/-! ## Lemmas on the building blocks -/

theorem calls_append (a b : List Effect) : calls (a ++ b) = calls a ++ calls b := by
  simp [calls]

theorem calls_logField (title : String) (o : Option String) : calls (logField title o) = [] := by
  cases o with
  | none => rfl
  | some s => by_cases h : s = "" <;> simp [logField, h, calls, Effect.isCall]

theorem calls_sendError (label : String) (err : Option JsError) :
    calls (sendError label err).1 = [] := by
  cases err with
  | none => simp [sendError, calls, Effect.isCall]
  | some e =>
    have h := calls_logField
    simp only [calls] at h
    simp [sendError, calls, Effect.isCall, h]

theorem sendError_response (label : String) (err : Option JsError) :
    (sendError label err).2 = ⟨500, errorBody label⟩ := by
  simp [sendError, json, errorBody]

theorem handler_of_lacksVideoHost (w : World) (req : Request) (h : lacksVideoHost req.videoUrl) :
    (handler w req).response.status = 400 ∧ (handler w req).effects =
      [.console .log [.str "\n[INFO] /api/fetch-transcript called with:", req.videoUrl]] := by
  unfold handler
  cases hv : req.videoUrl with
  | str s =>
    rw [hv] at h
    rcases h with h | ⟨h1, h2⟩
    · subst h; simp [truthy, typeOf, json]
    · by_cases hs : s = "" <;> simp [truthy, typeOf, json, hs, h1, h2]
  | _ => simp [truthy, typeOf, json]

theorem handler_of_hasVideoHost (w : World) (req : Request) (url : String)
    (hv : req.videoUrl = .str url) (h : hasVideoHost url) :
    handler w req = pipeline w url
      [.console .log [.str "\n[INFO] /api/fetch-transcript called with:", .str url]]
      (scratchPaths w) := by
  have hne : url ≠ "" := by
    rintro rfl
    rcases h with h | h <;> revert h <;> decide
  unfold handler
  rcases h with h | h <;> simp [hv, truthy, typeOf, hne, h]

theorem calls_prepareDir (w : World) :
    calls (prepareDir w).1 = if w.tmpExists then [Effect.existsSync outputDir]
      else [.existsSync outputDir, .mkdirSync outputDir] := by
  have h := calls_sendError
  simp only [calls] at h
  unfold prepareDir
  cases w.tmpExists <;> cases w.mkdirError <;> simp [calls, Effect.isCall, h]

theorem calls_download (w : World) (url : String) :
    calls (download w url).1 =
      Effect.execFile YTDLP_PATH ["-f", "bestaudio", "-o", outTemplate, url] (1024 * 1024 * 10)
        :: (match execFileAsync YTDLP_PATH ["-f", "bestaudio", "-o", outTemplate, url] w.ytdlp with
            | .ok _ => [Effect.readdirSync outputDir]
            | .error _ => []) := by
  have hs := calls_sendError
  simp only [calls] at hs
  unfold download
  simp only []
  cases execFileAsync YTDLP_PATH ["-f", "bestaudio", "-o", outTemplate, url] w.ytdlp with
  | error e => simp [calls, Effect.isCall, hs]
  | ok out =>
    cases w.readdirError with
    | some e =>
      by_cases h : out.2 = "" <;> simp [calls, Effect.isCall, hs, h]
    | none =>
      by_cases h : out.2 = "" <;> by_cases h0 : (files w.scratch).length = 0 <;>
        simp [calls, Effect.isCall, hs, h, h0]

theorem calls_transcribeTry (w : World) (latestFile : String) :
    calls (transcribeTry w latestFile).1 =
      if envTruthy w.OPENAI_API_KEY
        then [Effect.transcribe ⟨latestFile, "gpt-4o-mini-transcribe", "json", "0.2"⟩]
        else [] := by
  have hs := calls_sendError
  simp only [calls] at hs
  unfold transcribeTry
  cases envTruthy w.OPENAI_API_KEY with
  | false => simp [calls, hs]
  | true => cases w.transcription <;> simp [calls, Effect.isCall, hs]

theorem calls_cleanup (w : World) (latestFile : String) (disk : List String) :
    calls (cleanup w latestFile disk).1 =
      if latestFile = "" then [] else [Effect.unlinkSync latestFile] := by
  unfold cleanup
  by_cases h : latestFile = "" <;> cases w.unlinkError <;> simp [h, calls, Effect.isCall]

theorem calls_respond (reply : ServiceReply) : calls (respond reply).1 = [] := by
  cases reply with
  | nullish => exact calls_sendError _ _
  | value text => rfl

/-! ## The pipeline, case by case -/

theorem prepareDir_snd_eq_none (w : World) :
    (prepareDir w).2 = none ↔ (w.tmpExists = true ∨ w.mkdirError = none) := by
  unfold prepareDir
  cases w.tmpExists <;> cases w.mkdirError <;> simp

theorem prepareDir_snd_eq_some (w : World) (res : Response) (h : (prepareDir w).2 = some res) :
    res = ⟨500, errorBody "Could not create tmp directory on the server."⟩ := by
  unfold prepareDir at h
  cases hte : w.tmpExists <;> cases hmk : w.mkdirError <;>
    simp [hte, hmk, sendError_response] at h
  exact h.symm

theorem execFileAsync_error_iff (file : String) (args : List String) (p : ProcOutcome) :
    (∃ e, execFileAsync file args p = .error e) ↔ p.failed = true := by
  cases p with
  | spawnError e => simp [execFileAsync, ProcOutcome.failed]
  | exited code out err =>
    cases code <;> simp [execFileAsync, ProcOutcome.failed]

theorem download_of_failed (w : World) (url : String) (h : w.ytdlp.failed = true) :
    (download w url).2 = .error ⟨500, errorBody downloadFailed⟩ := by
  obtain ⟨e, he⟩ := (execFileAsync_error_iff YTDLP_PATH ["-f", "bestaudio", "-o", outTemplate, url] _).2 h
  unfold download
  simp [he, sendError_response, downloadFailed]

theorem download_of_readdirError (w : World) (url : String) (e : JsError)
    (h : w.readdirError = some e) :
    (download w url).2 = .error ⟨500, errorBody downloadFailed⟩ := by
  unfold download
  cases hx : execFileAsync YTDLP_PATH ["-f", "bestaudio", "-o", outTemplate, url] w.ytdlp with
  | error e => simp [hx, sendError_response, downloadFailed]
  | ok out => simp [hx, h, sendError_response, downloadFailed]

theorem download_of_no_files (w : World) (url : String) (hok : w.ytdlp.failed = false)
    (hrd : w.readdirError = none) (h : files w.scratch = []) :
    (download w url).2 = .error ⟨500, errorBody "Audio download failed: no audio files found."⟩ := by
  have hx : ∃ out, execFileAsync YTDLP_PATH ["-f", "bestaudio", "-o", outTemplate, url] w.ytdlp = .ok out := by
    cases hy : w.ytdlp with
    | spawnError e => simp [hy, ProcOutcome.failed] at hok
    | exited code out err =>
      cases code with
      | zero => exact ⟨_, rfl⟩
      | succ n => simp [hy, ProcOutcome.failed] at hok
  obtain ⟨out, hx⟩ := hx
  unfold download
  simp [hx, hrd, h, sendError_response]

theorem download_of_files (w : World) (url : String) (hok : w.ytdlp.failed = false)
    (hrd : w.readdirError = none) (h : files w.scratch ≠ []) :
    (download w url).2 = .ok (path.join [outputDir, (files w.scratch).getLast h]) := by
  have hx : ∃ out, execFileAsync YTDLP_PATH ["-f", "bestaudio", "-o", outTemplate, url] w.ytdlp = .ok out := by
    cases hy : w.ytdlp with
    | spawnError e => simp [hy, ProcOutcome.failed] at hok
    | exited code out err =>
      cases code with
      | zero => exact ⟨_, rfl⟩
      | succ n => simp [hy, ProcOutcome.failed] at hok
  obtain ⟨out, hx⟩ := hx
  unfold download
  simp [hx, hrd, h, List.getLast_eq_getElem]

section equations

variable (w : World) (url : String) (fx0 : List Effect) (d0 : List String)

theorem pipeline_dir_error (res : Response) (h : (prepareDir w).2 = some res) :
    pipeline w url fx0 d0 = ⟨res, fx0 ++ (prepareDir w).1, d0⟩ := by
  unfold pipeline
  rcases hp : prepareDir w with ⟨fx1, r⟩
  rw [hp] at h
  dsimp only at h
  subst h
  rfl

theorem pipeline_download_error (res : Response) (h1 : (prepareDir w).2 = none)
    (h2 : (download w url).2 = .error res) :
    pipeline w url fx0 d0 = ⟨res, fx0 ++ (prepareDir w).1 ++ (download w url).1, d0⟩ := by
  unfold pipeline
  rcases hp : prepareDir w with ⟨fx1, r⟩
  rcases hd : download w url with ⟨fx2, r2⟩
  rw [hp] at h1
  rw [hd] at h2
  dsimp only at h1 h2
  subst h1 h2
  rfl

theorem pipeline_transcribe_error (latestFile : String) (res : Response)
    (h1 : (prepareDir w).2 = none) (h2 : (download w url).2 = .ok latestFile)
    (h3 : (transcribeTry w latestFile).2 = .error res) :
    pipeline w url fx0 d0 =
      ⟨res, fx0 ++ (prepareDir w).1 ++ (download w url).1 ++ (transcribeTry w latestFile).1
          ++ (cleanup w latestFile d0).1,
        (cleanup w latestFile d0).2⟩ := by
  unfold pipeline
  rcases hp : prepareDir w with ⟨fx1, r⟩
  rcases hd : download w url with ⟨fx2, r2⟩
  rw [hp] at h1
  rw [hd] at h2
  dsimp only at h1 h2
  subst h1 h2
  rcases ht : transcribeTry w latestFile with ⟨fx3, r3⟩
  rw [ht] at h3
  dsimp only at h3
  subst h3
  simp [ht]

theorem pipeline_transcribe_ok (latestFile : String) (reply : ServiceReply)
    (h1 : (prepareDir w).2 = none) (h2 : (download w url).2 = .ok latestFile)
    (h3 : (transcribeTry w latestFile).2 = .ok reply) :
    pipeline w url fx0 d0 =
      ⟨(respond reply).2,
        fx0 ++ (prepareDir w).1 ++ (download w url).1 ++ (transcribeTry w latestFile).1
          ++ (cleanup w latestFile d0).1 ++ (respond reply).1,
        (cleanup w latestFile d0).2⟩ := by
  unfold pipeline
  rcases hp : prepareDir w with ⟨fx1, r⟩
  rcases hd : download w url with ⟨fx2, r2⟩
  rw [hp] at h1
  rw [hd] at h2
  dsimp only at h1 h2
  subst h1 h2
  rcases ht : transcribeTry w latestFile with ⟨fx3, r3⟩
  rw [ht] at h3
  dsimp only at h3
  subst h3
  simp [ht]

end equations

theorem transcribeTry_of_no_key (w : World) (latestFile : String)
    (h : envTruthy w.OPENAI_API_KEY = false) :
    (transcribeTry w latestFile).2
      = .error ⟨500, errorBody "OPENAI_API_KEY is not set on the server. Add it and redeploy."⟩ := by
  unfold transcribeTry
  simp [h, sendError_response]

theorem transcribeTry_of_error (w : World) (latestFile : String) (e : JsError)
    (h : envTruthy w.OPENAI_API_KEY = true) (he : w.transcription = .error e) :
    (transcribeTry w latestFile).2
      = .error ⟨500, errorBody "OpenAI transcription failed. Check your API key and model."⟩ := by
  unfold transcribeTry
  simp [h, he, sendError_response]

theorem transcribeTry_of_ok (w : World) (latestFile : String) (reply : ServiceReply)
    (h : envTruthy w.OPENAI_API_KEY = true) (he : w.transcription = .ok reply) :
    (transcribeTry w latestFile).2 = .ok reply := by
  unfold transcribeTry
  simp [h, he]

theorem cleanup_disk (w : World) (latestFile : String) (disk : List String) (h : latestFile ≠ "") :
    (cleanup w latestFile disk).2
      = if w.unlinkError = none then disk.filter (fun p => p != latestFile) else disk := by
  unfold cleanup
  cases w.unlinkError <;> simp [h]

theorem normalizeChars_ne_nil (p : List Char) : path.normalizeChars p ≠ [] := by
  unfold path.normalizeChars
  simp only []
  split_ifs <;> simp_all

theorem join_ne_empty (args : List String) : path.join args ≠ "" := by
  intro h
  have h2 := congrArg String.data h
  exact normalizeChars_ne_nil _ h2

theorem selectedFile_eq_some (w : World) (url latestFile : String) :
    selectedFile w url = some latestFile
      ↔ (prepareDir w).2 = none ∧ (download w url).2 = .ok latestFile := by
  unfold selectedFile
  cases (prepareDir w).2 <;> cases (download w url).2 <;> simp

theorem download_ok_ne_empty (w : World) (url latestFile : String)
    (h : (download w url).2 = .ok latestFile) : latestFile ≠ "" := by
  unfold download at h
  simp only [] at h
  split at h
  · simp at h
  · split at h
    · simp at h
    · split at h
      · simp at h
      · simp at h
        rw [← h]
        exact join_ne_empty _

/-! ## The handler on a request that passes validation -/

section valid

variable (w : World) (req : Request) (url : String)
  (hv : req.videoUrl = .str url) (hh : hasVideoHost url)
include hv hh

theorem handler_dir_error (res : Response) (h : (prepareDir w).2 = some res) :
    (handler w req).response = res ∧ (handler w req).execs = [] ∧ (handler w req).uploads = []
      ∧ (handler w req).deletions = [] ∧ (handler w req).disk = scratchPaths w := by
  rw [handler_of_hasVideoHost w req url hv hh, pipeline_dir_error w url _ _ res h]
  simp only [Outcome.execs, Outcome.uploads, Outcome.deletions, calls_append, calls_prepareDir]
  cases w.tmpExists <;> simp [calls, Effect.isCall, execTarget, uploadTarget, unlinkTarget]

theorem handler_download_error (res : Response) (h1 : (prepareDir w).2 = none)
    (h2 : (download w url).2 = .error res) :
    (handler w req).response = res
      ∧ (handler w req).execs = [["-f", "bestaudio", "-o", outTemplate, url]]
      ∧ (handler w req).uploads = []
      ∧ (handler w req).deletions = [] ∧ (handler w req).disk = scratchPaths w := by
  rw [handler_of_hasVideoHost w req url hv hh, pipeline_download_error w url _ _ res h1 h2]
  simp only [Outcome.execs, Outcome.uploads, Outcome.deletions, calls_append, calls_prepareDir,
    calls_download]
  cases w.tmpExists <;>
    cases execFileAsync YTDLP_PATH ["-f", "bestaudio", "-o", outTemplate, url] w.ytdlp <;>
    simp [calls, Effect.isCall, execTarget, uploadTarget, unlinkTarget]

theorem handler_selected (latestFile : String) (hs : selectedFile w url = some latestFile) :
    (handler w req).response =
        (match (transcribeTry w latestFile).2 with
          | .error res => res
          | .ok reply => (respond reply).2)
      ∧ (handler w req).execs = [["-f", "bestaudio", "-o", outTemplate, url]]
      ∧ (handler w req).uploads = (if envTruthy w.OPENAI_API_KEY then [latestFile] else [])
      ∧ (handler w req).deletions = [latestFile]
      ∧ (handler w req).disk =
          (if w.unlinkError = none then (scratchPaths w).filter (fun p => p != latestFile)
            else scratchPaths w) := by
  obtain ⟨h1, h2⟩ := (selectedFile_eq_some w url latestFile).1 hs
  have hne := download_ok_ne_empty w url latestFile h2
  rw [handler_of_hasVideoHost w req url hv hh]
  cases h3 : (transcribeTry w latestFile).2 with
  | error res =>
    rw [pipeline_transcribe_error w url _ _ latestFile res h1 h2 h3]
    simp only [Outcome.execs, Outcome.uploads, Outcome.deletions, calls_append, calls_prepareDir,
      calls_download, calls_transcribeTry, calls_cleanup, cleanup_disk w latestFile _ hne]
    cases w.tmpExists <;> cases envTruthy w.OPENAI_API_KEY <;>
      cases execFileAsync YTDLP_PATH ["-f", "bestaudio", "-o", outTemplate, url] w.ytdlp <;>
      simp [calls, Effect.isCall, execTarget, uploadTarget, unlinkTarget, hne]
  | ok reply =>
    rw [pipeline_transcribe_ok w url _ _ latestFile reply h1 h2 h3]
    simp only [Outcome.execs, Outcome.uploads, Outcome.deletions, calls_append, calls_prepareDir,
      calls_download, calls_transcribeTry, calls_cleanup, calls_respond,
      cleanup_disk w latestFile _ hne]
    cases w.tmpExists <;> cases envTruthy w.OPENAI_API_KEY <;>
      cases execFileAsync YTDLP_PATH ["-f", "bestaudio", "-o", outTemplate, url] w.ytdlp <;>
      simp [calls, Effect.isCall, execTarget, uploadTarget, unlinkTarget, hne]

end valid

theorem files_eq_nil (l : List String) (h : ∀ n ∈ l, ¬ isAudioFile n) : files l = [] := by
  unfold files
  rw [List.filter_eq_nil_iff]
  intro n hn hcond
  apply h n hn
  simpa [isAudioFile] using hcond

theorem download_error_label (w : World) (url : String) (res : Response)
    (h : (download w url).2 = .error res) :
    res = ⟨500, errorBody downloadFailed⟩
      ∨ res = ⟨500, errorBody "Audio download failed: no audio files found."⟩ := by
  unfold download at h
  simp only [] at h
  split at h
  · simp [sendError_response] at h
    exact Or.inl h.symm
  · split at h
    · simp [sendError_response] at h
      exact Or.inl h.symm
    · split at h
      · simp [sendError_response] at h
        exact Or.inr h.symm
      · simp at h

theorem transcribeTry_error_label (w : World) (latestFile : String) (res : Response)
    (h : (transcribeTry w latestFile).2 = .error res) :
    res = ⟨500, errorBody "OPENAI_API_KEY is not set on the server. Add it and redeploy."⟩
      ∨ res = ⟨500, errorBody "OpenAI transcription failed. Check your API key and model."⟩ := by
  unfold transcribeTry at h
  split at h
  · simp [sendError_response] at h
    exact Or.inl h.symm
  · cases ht : w.transcription with
    | ok reply => simp [ht] at h
    | error e =>
      simp [ht, sendError_response] at h
      exact Or.inr h.symm

theorem transcribeTry_ok_reply (w : World) (latestFile : String) (reply : ServiceReply)
    (h : (transcribeTry w latestFile).2 = .ok reply) : w.transcription = .ok reply := by
  unfold transcribeTry at h
  split at h
  · simp at h
  · cases ht : w.transcription with
    | ok r => simpa [ht] using h
    | error e => simp [ht] at h

theorem respond_value (text : JsVal) : (respond (.value text)).2 = json 200 [("transcript", text)] :=
  rfl

theorem respond_nullish :
    (respond .nullish).2 = ⟨500, errorBody "Failed to send transcript response."⟩ :=
  sendError_response _ _

/-- On a request that passes validation the response is either the transcript
with status 200 or status 500 with one of the six labels. -/
theorem handler_valid_response (w : World) (req : Request) (url : String)
    (hv : req.videoUrl = .str url) (hh : hasVideoHost url) :
    (∃ text, w.transcription = .ok (.value text)
        ∧ (handler w req).response = json 200 [("transcript", text)])
      ∨ ∃ label ∈ errorLabels, (handler w req).response = ⟨500, errorBody label⟩ := by
  cases hp : (prepareDir w).2 with
  | some res =>
    right
    refine ⟨_, ?_, (handler_dir_error w req url hv hh res hp).1.trans
      (prepareDir_snd_eq_some w res hp)⟩
    simp [errorLabels]
  | none =>
    cases hd : (download w url).2 with
    | error res =>
      right
      have hr := (handler_download_error w req url hv hh res hp hd).1
      rcases download_error_label w url res hd with h | h
      · exact ⟨_, by simp [errorLabels, downloadFailed], hr.trans h⟩
      · exact ⟨_, by simp [errorLabels], hr.trans h⟩
    | ok latestFile =>
      have hs : selectedFile w url = some latestFile :=
        (selectedFile_eq_some w url latestFile).2 ⟨hp, hd⟩
      have hr := (handler_selected w req url hv hh latestFile hs).1
      cases ht : (transcribeTry w latestFile).2 with
      | error res =>
        right
        rw [ht] at hr
        rcases transcribeTry_error_label w latestFile res ht with h | h
        · exact ⟨_, by simp [errorLabels], hr.trans h⟩
        · exact ⟨_, by simp [errorLabels], hr.trans h⟩
      | ok reply =>
        rw [ht] at hr
        cases reply with
        | nullish => exact Or.inr ⟨_, by simp [errorLabels], hr.trans respond_nullish⟩
        | value text => exact Or.inl ⟨text, transcribeTry_ok_reply w latestFile _ ht, hr⟩

/-! ## Input validation -/

/-- C1: a request whose `videoUrl` is missing, not a string, empty, or a string
with neither `youtube.com` nor `youtu.be` in it is answered with status 400, and
neither the downloader nor the transcription service is called for it. -/
theorem invalid_videoUrl_rejected (w : World) (req : Request)
    (h : lacksVideoHost req.videoUrl) :
    (handler w req).response.status = 400 ∧ (handler w req).execs = []
      ∧ (handler w req).uploads = [] := by
  obtain ⟨hs, he⟩ := handler_of_lacksVideoHost w req h
  refine ⟨hs, ?_, ?_⟩ <;> simp [Outcome.execs, Outcome.uploads, he, calls, Effect.isCall]

/-- An instance: a Vimeo address is turned away with 400 and nothing is called. -/
theorem invalid_videoUrl_rejected_witness :
    lacksVideoHost (requestFor (.str "https://vimeo.com/1234")).videoUrl
      ∧ ((handler happyWorld (requestFor (.str "https://vimeo.com/1234"))).response.status = 400
        ∧ (handler happyWorld (requestFor (.str "https://vimeo.com/1234"))).execs = []
        ∧ (handler happyWorld (requestFor (.str "https://vimeo.com/1234"))).uploads = []) :=
  ⟨by decide, invalid_videoUrl_rejected happyWorld _ (by decide)⟩

/-- C9: a non-empty string `videoUrl` with neither host substring gets exactly
status 400 with the body `error: "Please send a valid YouTube URL."`; the other
400 body, `error: "videoUrl is required"`, is the response exactly when
`videoUrl` is missing, falsy or not a string. -/
theorem validation_messages (w : World) (req : Request) :
    (∀ s, req.videoUrl = .str s → s ≠ "" → includes s "youtube.com" = false →
        includes s "youtu.be" = false →
        (handler w req).response = ⟨400, errorBody "Please send a valid YouTube URL."⟩)
      ∧ ((handler w req).response = ⟨400, errorBody "videoUrl is required"⟩
          ↔ (req.videoUrl = .undefined ∨ truthy req.videoUrl = false
              ∨ ∀ s, req.videoUrl ≠ .str s)) := by
  constructor
  · intro s hv hne h1 h2
    unfold handler
    simp [hv, truthy, typeOf, hne, h1, h2, json, errorBody]
  · cases hv : req.videoUrl with
    | str s =>
      by_cases hne : s = ""
      · subst hne
        unfold handler
        simp [hv, truthy, typeOf, json, errorBody]
      · by_cases hh : hasVideoHost s
        · have hr := handler_valid_response w req s hv hh
          constructor
          · intro h
            rcases hr with ⟨text, _, h200⟩ | ⟨label, _, h500⟩
            · rw [h200] at h
              simp [json] at h
            · rw [h500] at h
              simp at h
          · simp [truthy, hne]
        · have h1 : includes s "youtube.com" = false := by
            simpa using fun h => hh (Or.inl h)
          have h2 : includes s "youtu.be" = false := by
            simpa using fun h => hh (Or.inr h)
          unfold handler
          simp [hv, truthy, typeOf, hne, h1, h2, json, errorBody]
    | _ =>
      unfold handler
      simp [hv, truthy, typeOf, json, errorBody]

/-- An instance: the text `not a url` gets the YouTube-URL message. -/
theorem validation_messages_witness :
    (handler happyWorld (requestFor (.str "not a url"))).response
      = ⟨400, errorBody "Please send a valid YouTube URL."⟩ :=
  (validation_messages happyWorld (requestFor (.str "not a url"))).1 "not a url" rfl
    (by decide) (by decide) (by decide)

/-! ## The download step -/

/-- C3: on a request with a valid video URL for which the downloader is invoked
and throws or exits non-zero, the response is status 500 with the label
`Audio download failed. Check yt-dlp is installed and the video is accessible.`,
the transcription service is not called, and the downloader was run once only. -/
theorem download_failure_reported (w : World) (req : Request) (url : String)
    (hv : req.videoUrl = .str url) (hh : hasVideoHost url)
    (hinv : (handler w req).execs ≠ []) (hfail : w.ytdlp.failed = true) :
    (handler w req).response = ⟨500, errorBody
        "Audio download failed. Check yt-dlp is installed and the video is accessible."⟩
      ∧ (handler w req).uploads = []
      ∧ (handler w req).execs = [["-f", "bestaudio", "-o", outTemplate, url]] := by
  cases hp : (prepareDir w).2 with
  | some res => exact absurd (handler_dir_error w req url hv hh res hp).2.1 hinv
  | none =>
    have h := handler_download_error w req url hv hh _ hp (download_of_failed w url hfail)
    exact ⟨h.1, h.2.2.1, h.2.1⟩

/-- An instance: the downloader exits with code 1 on the end-to-end request. -/
theorem download_failure_reported_witness :
    (handler downloadFailsWorld (requestFor (.str "https://youtu.be/abc123"))).execs ≠ []
      ∧ downloadFailsWorld.ytdlp.failed = true
      ∧ (handler downloadFailsWorld (requestFor (.str "https://youtu.be/abc123"))).response
          = ⟨500, errorBody
              "Audio download failed. Check yt-dlp is installed and the video is accessible."⟩
      ∧ (handler downloadFailsWorld (requestFor (.str "https://youtu.be/abc123"))).uploads = []
      ∧ (handler downloadFailsWorld (requestFor (.str "https://youtu.be/abc123"))).execs
          = [["-f", "bestaudio", "-o", outTemplate, "https://youtu.be/abc123"]] :=
  ⟨by decide, by decide,
    download_failure_reported downloadFailsWorld (requestFor (.str "https://youtu.be/abc123"))
      "https://youtu.be/abc123" rfl (by decide) (by decide) (by decide)⟩

/-- C6: on a request with a valid video URL for which the downloader is invoked
and succeeds, when the listing of the scratch directory has no name that starts
with `audio-` and does not end with `.part`, the response is status 500 with
the label `Audio download failed: no audio files found.`, the transcription
service is not called and no file is deleted. -/
theorem no_audio_file_reported (w : World) (req : Request) (url : String)
    (hv : req.videoUrl = .str url) (hh : hasVideoHost url)
    (hinv : (handler w req).execs ≠ []) (hok : w.ytdlp.failed = false)
    (hrd : w.readdirError = none) (hnone : ∀ n ∈ w.scratch, ¬ isAudioFile n) :
    (handler w req).response = ⟨500, errorBody "Audio download failed: no audio files found."⟩
      ∧ (handler w req).uploads = [] ∧ (handler w req).deletions = []
      ∧ (handler w req).disk = scratchPaths w := by
  cases hp : (prepareDir w).2 with
  | some res => exact absurd (handler_dir_error w req url hv hh res hp).2.1 hinv
  | none =>
    have h := handler_download_error w req url hv hh _ hp
      (download_of_no_files w url hok hrd (files_eq_nil _ hnone))
    exact ⟨h.1, h.2.2.1, h.2.2.2.1, h.2.2.2.2⟩

/-- An instance: the downloader leaves a partial file and an unrelated file only. -/
theorem no_audio_file_reported_witness :
    (handler noAudioWorld (requestFor (.str "https://youtu.be/abc123"))).execs ≠ []
      ∧ (∀ n ∈ noAudioWorld.scratch, ¬ isAudioFile n)
      ∧ (handler noAudioWorld (requestFor (.str "https://youtu.be/abc123"))).response
          = ⟨500, errorBody "Audio download failed: no audio files found."⟩
      ∧ (handler noAudioWorld (requestFor (.str "https://youtu.be/abc123"))).uploads = []
      ∧ (handler noAudioWorld (requestFor (.str "https://youtu.be/abc123"))).deletions = []
      ∧ (handler noAudioWorld (requestFor (.str "https://youtu.be/abc123"))).disk
          = scratchPaths noAudioWorld :=
  ⟨by decide, by decide,
    no_audio_file_reported noAudioWorld (requestFor (.str "https://youtu.be/abc123"))
      "https://youtu.be/abc123" rfl (by decide) (by decide) rfl rfl (by decide)⟩

/-! ## `path.join` on a scratch file name -/

theorem splitSep_of_no_sep (cs : List Char) (h : '/' ∉ cs) : path.splitSep cs = [cs] := by
  induction cs with
  | nil => rfl
  | cons c cs ih =>
    have hc : c ≠ '/' := fun e => h (by simp [e])
    have hcs : '/' ∉ cs := fun e => h (by simp [e])
    simp [path.splitSep, hc, ih hcs]

theorem normalizeChars_scratch (t : List Char) (h : '/' ∉ t) :
    path.normalizeChars ("./tmp/audio-".data ++ t) = "tmp/audio-".data ++ t := by
  have h1 : "./tmp/audio-".data = ['.', '/', 't', 'm', 'p', '/', 'a', 'u', 'd', 'i', 'o', '-'] := rfl
  have h2 : "tmp/audio-".data = ['t', 'm', 'p', '/', 'a', 'u', 'd', 'i', 'o', '-'] := rfl
  have hlast : ¬ ('-' :: t).getLast? = some '/' := by
    intro hl
    have hm := List.mem_of_getLast?_eq_some hl
    rcases List.mem_cons.1 hm with e | e
    · exact absurd e (by decide)
    · exact h e
  rw [h1, h2]
  unfold path.normalizeChars
  simp [path.splitSep, splitSep_of_no_sep t h, path.normalizeSegs, path.joinSegs, hlast]

theorem join_scratch (name : String) (hs : '/' ∉ name.data)
    (h : startsWith name "audio-" = true) : path.join [outputDir, name] = "tmp/" ++ name := by
  unfold startsWith at h
  rw [List.isPrefixOf_iff_prefix] at h
  obtain ⟨t, ht⟩ := h
  have hne : name ≠ "" := by
    rintro rfl
    simp at ht
  have hslash : '/' ∉ t := by
    intro hm
    apply hs
    rw [← ht]
    exact List.mem_append_right _ hm
  have hchars : path.joinSegs [outputDir.data, name.data] = "./tmp/audio-".data ++ t := by
    rw [← ht]
    rfl
  have hfilter : ([outputDir, name].filter (fun a => a != "")) = [outputDir, name] := by
    have ho : outputDir ≠ "" := by decide
    simp [ho, hne]
  unfold path.join
  rw [hfilter]
  simp only [List.map_cons, List.map_nil]
  rw [hchars, normalizeChars_scratch t hslash]
  apply String.ext
  rw [String.data_append, ← ht]
  rfl

/-! ## The response as a function of the three step results -/

theorem handler_response_eq (w : World) (req : Request) (url : String)
    (hv : req.videoUrl = .str url) (hh : hasVideoHost url) :
    (handler w req).response =
      match (prepareDir w).2 with
      | some res => res
      | none =>
        match (download w url).2 with
        | .error res => res
        | .ok latestFile =>
          match (transcribeTry w latestFile).2 with
          | .error res => res
          | .ok reply => (respond reply).2 := by
  cases hp : (prepareDir w).2 with
  | some res => exact (handler_dir_error w req url hv hh res hp).1
  | none =>
    cases hd : (download w url).2 with
    | error res => exact (handler_download_error w req url hv hh res hp hd).1
    | ok latestFile =>
      exact (handler_selected w req url hv hh latestFile
        ((selectedFile_eq_some w url latestFile).2 ⟨hp, hd⟩)).1

theorem handler_response_invalid (w w2 : World) (req : Request)
    (h : ∀ url, req.videoUrl = .str url → ¬ hasVideoHost url) :
    (handler w req).response = (handler w2 req).response := by
  unfold handler
  cases hv : req.videoUrl with
  | str s =>
    have hn := h s hv
    have h1 : includes s "youtube.com" = false := by
      simpa using fun e => hn (Or.inl e)
    have h2 : includes s "youtu.be" = false := by
      simpa using fun e => hn (Or.inr e)
    by_cases hs : s = "" <;> simp [truthy, typeOf, hs, h1, h2]
  | _ => simp [truthy, typeOf]

theorem prepareDir_redact (w : World) : (prepareDir (redact w)).2 = (prepareDir w).2 := by
  unfold prepareDir redact
  cases w.tmpExists <;> cases w.mkdirError <;> simp [sendError_response]

theorem download_redact (w : World) (url : String) :
    (download (redact w) url).2 = (download w url).2 := by
  cases hf : w.ytdlp.failed with
  | true =>
    have hr : (redact w).ytdlp.failed = true := by
      show (if w.ytdlp.failed then ProcOutcome.spawnError blankError
        else ProcOutcome.exited 0 "" "").failed = true
      rw [hf]
      rfl
    rw [download_of_failed w url hf, download_of_failed (redact w) url hr]
  | false =>
    have hr : (redact w).ytdlp.failed = false := by
      show (if w.ytdlp.failed then ProcOutcome.spawnError blankError
        else ProcOutcome.exited 0 "" "").failed = false
      rw [hf]
      rfl
    cases hrd : w.readdirError with
    | some e =>
      have hrd2 : (redact w).readdirError = some blankError := by simp [redact, hrd]
      rw [download_of_readdirError w url e hrd, download_of_readdirError (redact w) url _ hrd2]
    | none =>
      have hrd2 : (redact w).readdirError = none := by simp [redact, hrd]
      by_cases hm : files w.scratch = []
      · rw [download_of_no_files w url hf hrd hm, download_of_no_files (redact w) url hr hrd2 hm]
      · rw [download_of_files w url hf hrd hm, download_of_files (redact w) url hr hrd2 hm]
        rfl

theorem transcribeTry_redact (w : World) (latestFile : String) :
    (transcribeTry (redact w) latestFile).2 = (transcribeTry w latestFile).2 := by
  cases hk : envTruthy w.OPENAI_API_KEY with
  | false =>
    rw [transcribeTry_of_no_key w _ hk, transcribeTry_of_no_key (redact w) _ hk]
  | true =>
    cases ht : w.transcription with
    | ok reply =>
      have ht2 : (redact w).transcription = .ok reply := by simp [redact, ht]
      rw [transcribeTry_of_ok w _ reply hk ht, transcribeTry_of_ok (redact w) _ reply hk ht2]
    | error e =>
      have ht2 : (redact w).transcription = .error blankError := by simp [redact, ht]
      rw [transcribeTry_of_error w _ e hk ht, transcribeTry_of_error (redact w) _ _ hk ht2]

theorem handler_response_redact (w : World) (req : Request) :
    (handler (redact w) req).response = (handler w req).response := by
  by_cases h : ∃ url, req.videoUrl = .str url ∧ hasVideoHost url
  · obtain ⟨url, hv, hh⟩ := h
    rw [handler_response_eq w req url hv hh, handler_response_eq (redact w) req url hv hh,
      prepareDir_redact, download_redact]
    cases (prepareDir w).2 with
    | some res => rfl
    | none =>
      cases (download w url).2 with
      | error res => rfl
      | ok latestFile =>
        simp only [transcribeTry_redact]
  · exact handler_response_invalid _ _ req (fun url hv hh => h ⟨url, hv, hh⟩)

theorem handler_response_unlink (w : World) (req : Request) (e : Option JsError) :
    (handler { w with unlinkError := e } req).response = (handler w req).response := by
  by_cases h : ∃ url, req.videoUrl = .str url ∧ hasVideoHost url
  · obtain ⟨url, hv, hh⟩ := h
    rw [handler_response_eq w req url hv hh,
      handler_response_eq { w with unlinkError := e } req url hv hh]
    rfl
  · exact handler_response_invalid _ _ req (fun url hv hh => h ⟨url, hv, hh⟩)

theorem selectedFile_of_files (w : World) (url : String)
    (hdir : w.tmpExists = true ∨ w.mkdirError = none) (hok : w.ytdlp.failed = false)
    (hrd : w.readdirError = none) (hm : files w.scratch ≠ []) :
    selectedFile w url = some (path.join [outputDir, (files w.scratch).getLast hm]) :=
  (selectedFile_eq_some w url _).2
    ⟨(prepareDir_snd_eq_none w).2 hdir, download_of_files w url hok hrd hm⟩

theorem prepareDir_of_execs (w : World) (req : Request) (url : String)
    (hv : req.videoUrl = .str url) (hh : hasVideoHost url) (hinv : (handler w req).execs ≠ []) :
    (prepareDir w).2 = none := by
  cases hp : (prepareDir w).2 with
  | some res => exact absurd (handler_dir_error w req url hv hh res hp).2.1 hinv
  | none => rfl

/-! ## The transcription step -/

/-- C2, as the code has it: without the credential, a request with a valid video
URL is answered with status 500 and the transcription service is never called,
whatever the download does; the body is the label
`OPENAI_API_KEY is not set on the server. Add it and redeploy.` exactly when the
directory and download steps passed and a scratch file was selected. -/
theorem missing_key_never_uploads (w : World) (req : Request) (url : String)
    (hv : req.videoUrl = .str url) (hh : hasVideoHost url) (hkey : w.OPENAI_API_KEY = none) :
    (handler w req).response.status = 500 ∧ (handler w req).uploads = []
      ∧ ((handler w req).response
            = ⟨500, errorBody "OPENAI_API_KEY is not set on the server. Add it and redeploy."⟩
          ↔ (selectedFile w url).isSome = true) := by
  have hk : envTruthy w.OPENAI_API_KEY = false := by rw [hkey]; rfl
  cases hp : (prepareDir w).2 with
  | some res =>
    obtain ⟨hr, _, hu, _⟩ := handler_dir_error w req url hv hh res hp
    have hres := prepareDir_snd_eq_some w res hp
    have hsel : selectedFile w url = none := by simp [selectedFile, hp]
    rw [hr, hres, hsel]
    refine ⟨rfl, hu, ?_⟩
    simp [errorBody]
  | none =>
    cases hd : (download w url).2 with
    | error res =>
      obtain ⟨hr, _, hu, _⟩ := handler_download_error w req url hv hh res hp hd
      have hsel : selectedFile w url = none := by simp [selectedFile, hp, hd]
      rw [hr, hsel]
      rcases download_error_label w url res hd with h | h <;> rw [h] <;>
        exact ⟨rfl, hu, by simp [errorBody, downloadFailed]⟩
    | ok latestFile =>
      have hsel : selectedFile w url = some latestFile :=
        (selectedFile_eq_some w url latestFile).2 ⟨hp, hd⟩
      obtain ⟨hr, _, hu, _⟩ := handler_selected w req url hv hh latestFile hsel
      rw [transcribeTry_of_no_key w latestFile hk] at hr
      rw [hk] at hu
      rw [hr, hsel]
      exact ⟨rfl, hu, by simp⟩

/-- An instance: the end-to-end world without the credential. -/
theorem missing_key_never_uploads_witness :
    noKeyWorld.OPENAI_API_KEY = none
      ∧ ((handler noKeyWorld sampleRequest).response.status = 500
        ∧ (handler noKeyWorld sampleRequest).uploads = []
        ∧ ((handler noKeyWorld sampleRequest).response
              = ⟨500, errorBody "OPENAI_API_KEY is not set on the server. Add it and redeploy."⟩
            ↔ (selectedFile noKeyWorld "https://youtu.be/abc123").isSome = true)) :=
  ⟨rfl, missing_key_never_uploads noKeyWorld sampleRequest "https://youtu.be/abc123" rfl
    (by decide) rfl⟩

/-- C2 as stated fails: with the credential absent and a valid video URL, a
failing downloader gets the download label, not the credential label. -/
theorem missing_key_label_depends_on_download :
    noKeyDownloadFailsWorld.OPENAI_API_KEY = none
      ∧ sampleRequest.videoUrl = .str "https://youtu.be/abc123"
      ∧ hasVideoHost "https://youtu.be/abc123"
      ∧ (handler noKeyDownloadFailsWorld sampleRequest).response
          = ⟨500, errorBody
              "Audio download failed. Check yt-dlp is installed and the video is accessible."⟩
      ∧ (handler noKeyDownloadFailsWorld sampleRequest).response
          ≠ ⟨500, errorBody "OPENAI_API_KEY is not set on the server. Add it and redeploy."⟩ := by
  decide

/-- C4, as the code has it: when a request reaches the transcription step with
the scratch file `latestFile`, then on every outcome of that step the handler
asks for the deletion of exactly that file, once; unless the deletion itself
fails the file is gone afterwards; every other scratch file stays; and the
response is the same whether or not the deletion fails. -/
theorem scratch_file_cleanup (w : World) (req : Request) (url latestFile : String)
    (hv : req.videoUrl = .str url) (hh : hasVideoHost url)
    (hs : selectedFile w url = some latestFile) :
    (handler w req).deletions = [latestFile]
      ∧ (w.unlinkError = none → latestFile ∉ (handler w req).disk)
      ∧ (∀ p ∈ scratchPaths w, p ≠ latestFile → p ∈ (handler w req).disk)
      ∧ (∀ e, (handler { w with unlinkError := e } req).response = (handler w req).response) := by
  obtain ⟨_, _, _, hdel, hdisk⟩ := handler_selected w req url hv hh latestFile hs
  refine ⟨hdel, ?_, ?_, fun e => handler_response_unlink w req e⟩
  · intro hu
    rw [hdisk, hu]
    simp
  · intro p hp hne
    rw [hdisk]
    split
    · simp [hp, hne]
    · exact hp

/-- An instance: the transcription service rejects the call, the file is deleted all the same. -/
theorem scratch_file_cleanup_witness :
    selectedFile transcriptionFailsWorld "https://youtu.be/abc123" = some "tmp/audio-abc123.m4a"
      ∧ ((handler transcriptionFailsWorld sampleRequest).deletions = ["tmp/audio-abc123.m4a"]
        ∧ (transcriptionFailsWorld.unlinkError = none →
            "tmp/audio-abc123.m4a" ∉ (handler transcriptionFailsWorld sampleRequest).disk)
        ∧ (∀ p ∈ scratchPaths transcriptionFailsWorld, p ≠ "tmp/audio-abc123.m4a" →
            p ∈ (handler transcriptionFailsWorld sampleRequest).disk)
        ∧ (∀ e, (handler { transcriptionFailsWorld with unlinkError := e } sampleRequest).response
            = (handler transcriptionFailsWorld sampleRequest).response)) :=
  ⟨by decide, scratch_file_cleanup transcriptionFailsWorld sampleRequest "https://youtu.be/abc123"
    "tmp/audio-abc123.m4a" rfl (by decide) (by decide)⟩

/-- C4 as stated fails: when `unlinkSync` throws, the request still completes
and the selected scratch file is still there afterwards. -/
theorem scratch_file_survives_failed_unlink :
    selectedFile unlinkFailsWorld "https://youtu.be/abc123" = some "tmp/audio-abc123.m4a"
      ∧ (handler unlinkFailsWorld sampleRequest).deletions = ["tmp/audio-abc123.m4a"]
      ∧ (handler unlinkFailsWorld sampleRequest).response.status = 200
      ∧ "tmp/audio-abc123.m4a" ∈ (handler unlinkFailsWorld sampleRequest).disk := by
  decide

/-- C5, as the code has it: with a valid video URL, the scratch directory
available, the downloader succeeding and leaving at least one matching file, the
credential set and the service answering an object whose text is `t`, the
response is 200 with the body `transcript: t`, `t` unchanged; and unless the
deletion itself fails, the selected scratch file is gone afterwards. -/
theorem end_to_end_success (w : World) (req : Request) (url t : String)
    (hv : req.videoUrl = .str url) (hh : hasVideoHost url)
    (hdir : w.tmpExists = true ∨ w.mkdirError = none) (hok : w.ytdlp.failed = false)
    (hrd : w.readdirError = none) (hm : files w.scratch ≠ [])
    (hkey : envTruthy w.OPENAI_API_KEY = true) (htr : w.transcription = .ok (.value (.str t))) :
    (handler w req).response = ⟨200, [("transcript", .str t)]⟩
      ∧ (w.unlinkError = none →
          path.join [outputDir, (files w.scratch).getLast hm] ∉ (handler w req).disk) := by
  have hs := selectedFile_of_files w url hdir hok hrd hm
  obtain ⟨hr, _, _, _, hdisk⟩ := handler_selected w req url hv hh _ hs
  rw [transcribeTry_of_ok w _ _ hkey htr] at hr
  refine ⟨by rw [hr]; simp [respond, json], ?_⟩
  intro hu
  rw [hdisk, hu]
  simp

/-- An instance: the end-to-end example of the specification. -/
theorem end_to_end_success_witness :
    ∃ hm : files happyWorld.scratch ≠ [],
      (handler happyWorld sampleRequest).response = ⟨200, [("transcript", .str "hello world")]⟩
        ∧ (happyWorld.unlinkError = none →
            path.join [outputDir, (files happyWorld.scratch).getLast hm]
              ∉ (handler happyWorld sampleRequest).disk) :=
  ⟨by decide, end_to_end_success happyWorld sampleRequest "https://youtu.be/abc123" "hello world"
    rfl (by decide) (Or.inl rfl) rfl rfl (by decide) rfl rfl⟩

/-- C5 as stated fails: all its premises hold in a world where `unlinkSync`
throws; the response is the 200 transcript, yet the scratch file still exists. -/
theorem success_with_failed_unlink_keeps_file :
    sampleRequest.videoUrl = .str "https://youtu.be/abc123"
      ∧ hasVideoHost "https://youtu.be/abc123"
      ∧ unlinkFailsWorld.tmpExists = true
      ∧ unlinkFailsWorld.ytdlp.failed = false
      ∧ unlinkFailsWorld.readdirError = none
      ∧ files unlinkFailsWorld.scratch = ["audio-abc123.m4a"]
      ∧ envTruthy unlinkFailsWorld.OPENAI_API_KEY = true
      ∧ unlinkFailsWorld.transcription = .ok (.value (.str "hello world"))
      ∧ (handler unlinkFailsWorld sampleRequest).response
          = ⟨200, [("transcript", .str "hello world")]⟩
      ∧ (handler unlinkFailsWorld sampleRequest).uploads = ["tmp/audio-abc123.m4a"]
      ∧ (handler unlinkFailsWorld sampleRequest).disk = ["tmp/audio-abc123.m4a"] :=
  ⟨rfl, by decide, rfl, rfl, rfl, by decide, rfl, rfl, by decide, by decide, by decide⟩

/-! ## File discovery -/

theorem getLast_files (l : List String) (hm : files l ≠ []) :
    (files l).getLast hm ∈ l ∧ isAudioFile ((files l).getLast hm) := by
  have h2 : ∀ x, x ∈ files l → x ∈ l ∧ isAudioFile x := by
    intro x hx
    unfold files at hx
    rw [List.mem_filter] at hx
    exact ⟨hx.1, by simpa [isAudioFile] using hx.2⟩
  exact h2 _ (List.getLast_mem hm)

/-- C10: after a successful download that returned the listing `w.scratch`,
with `files w.scratch` the matching names in listing order and not empty, the
file uploaded (when the credential is there) and the file whose deletion is
asked for are both `outputDir` joined with the last matching name; that name is
in the listing, starts with `audio-` and does not end with `.part`; and, names
of directory entries having no `/`, every other matching entry stays on disk. -/
theorem latestFile_is_last_match (w : World) (req : Request) (url : String)
    (hv : req.videoUrl = .str url) (hh : hasVideoHost url)
    (hinv : (handler w req).execs ≠ []) (hok : w.ytdlp.failed = false)
    (hrd : w.readdirError = none) (hm : files w.scratch ≠ []) :
    List.Sublist (files w.scratch) w.scratch
      ∧ (∀ n, n ∈ files w.scratch ↔ n ∈ w.scratch ∧ isAudioFile n)
      ∧ (handler w req).uploads
          = (if envTruthy w.OPENAI_API_KEY
              then [path.join [outputDir, (files w.scratch).getLast hm]] else [])
      ∧ (handler w req).deletions = [path.join [outputDir, (files w.scratch).getLast hm]]
      ∧ (files w.scratch).getLast hm ∈ w.scratch
      ∧ startsWith ((files w.scratch).getLast hm) "audio-" = true
      ∧ endsWith ((files w.scratch).getLast hm) ".part" = false
      ∧ ((∀ n ∈ w.scratch, '/' ∉ n.data) →
          ∀ n ∈ files w.scratch, n ≠ (files w.scratch).getLast hm →
            path.join [outputDir, n] ∈ (handler w req).disk) := by
  have hdir := (prepareDir_snd_eq_none w).1 (prepareDir_of_execs w req url hv hh hinv)
  have hs := selectedFile_of_files w url hdir hok hrd hm
  obtain ⟨_, _, hup, hdel, hdisk⟩ := handler_selected w req url hv hh _ hs
  obtain ⟨hmem, haudio⟩ := getLast_files w.scratch hm
  have hfiles : ∀ n, n ∈ files w.scratch ↔ n ∈ w.scratch ∧ isAudioFile n := by
    intro n
    unfold files
    rw [List.mem_filter]
    simp [isAudioFile]
  refine ⟨List.filter_sublist _, hfiles, hup, hdel, hmem, haudio.1, haudio.2, ?_⟩
  intro hwf n hn hne
  obtain ⟨hnl, hna⟩ := (hfiles n).1 hn
  have hpath : path.join [outputDir, n] ∈ scratchPaths w :=
    List.mem_map.2 ⟨n, hnl, rfl⟩
  have hneq : path.join [outputDir, n] ≠ path.join [outputDir, (files w.scratch).getLast hm] := by
    rw [join_scratch n (hwf n hnl) hna.1, join_scratch _ (hwf _ hmem) haudio.1]
    intro h
    apply hne
    have h2 := congrArg String.data h
    rw [String.data_append, String.data_append] at h2
    exact String.ext (List.append_cancel_left h2)
  rw [hdisk]
  split
  · simp [hpath, hneq]
  · exact hpath

/-- An instance: of two matching names the later one is taken, the earlier one stays. -/
theorem latestFile_is_last_match_witness :
    ∃ hm : files crowdedWorld.scratch ≠ [],
      (handler crowdedWorld sampleRequest).execs ≠ []
      ∧ (files crowdedWorld.scratch).getLast hm = "audio-abc123.m4a"
      ∧ (List.Sublist (files crowdedWorld.scratch) crowdedWorld.scratch
        ∧ (∀ n, n ∈ files crowdedWorld.scratch ↔ n ∈ crowdedWorld.scratch ∧ isAudioFile n)
        ∧ (handler crowdedWorld sampleRequest).uploads
            = (if envTruthy crowdedWorld.OPENAI_API_KEY
                then [path.join [outputDir, (files crowdedWorld.scratch).getLast hm]] else [])
        ∧ (handler crowdedWorld sampleRequest).deletions
            = [path.join [outputDir, (files crowdedWorld.scratch).getLast hm]]
        ∧ (files crowdedWorld.scratch).getLast hm ∈ crowdedWorld.scratch
        ∧ startsWith ((files crowdedWorld.scratch).getLast hm) "audio-" = true
        ∧ endsWith ((files crowdedWorld.scratch).getLast hm) ".part" = false
        ∧ ((∀ n ∈ crowdedWorld.scratch, '/' ∉ n.data) →
            ∀ n ∈ files crowdedWorld.scratch, n ≠ (files crowdedWorld.scratch).getLast hm →
              path.join [outputDir, n] ∈ (handler crowdedWorld sampleRequest).disk)) :=
  ⟨by decide, by decide, by decide,
    latestFile_is_last_match crowdedWorld sampleRequest "https://youtu.be/abc123" rfl
      (by decide) (by decide) rfl rfl (by decide)⟩

/-! ## What reaches the HTTP response -/

theorem lacksVideoHost_of_not_valid (req : Request)
    (h : ¬ ∃ url, req.videoUrl = .str url ∧ hasVideoHost url) : lacksVideoHost req.videoUrl := by
  cases hv : req.videoUrl with
  | str s =>
    right
    constructor
    · simpa using fun e => h ⟨s, hv, Or.inl e⟩
    · simpa using fun e => h ⟨s, hv, Or.inr e⟩
  | _ => trivial

theorem label_of_status_500 (w : World) (req : Request)
    (h : (handler w req).response.status = 500) :
    ∃ label ∈ errorLabels, (handler w req).response = ⟨500, errorBody label⟩ := by
  by_cases hvalid : ∃ url, req.videoUrl = .str url ∧ hasVideoHost url
  · obtain ⟨url, hv, hh⟩ := hvalid
    rcases handler_valid_response w req url hv hh with ⟨text, _, h200⟩ | h500
    · rw [h200] at h
      simp [json] at h
    · exact h500
  · have h400 := (handler_of_lacksVideoHost w req (lacksVideoHost_of_not_valid req hvalid)).1
    omega

/-- C7, with the number of labels the code has: `sendError` puts nothing of the
error object into the response; two runs whose worlds differ only in error
detail (messages, captured output, exit code, service payload) get the same
response; and every 500 response is exactly `error: L` with `L` one of the six
fixed labels passed to `sendError`, each of which is the body of some response. -/
theorem error_detail_stays_on_server :
    (∀ label e, (sendError label e).2 = ⟨500, errorBody label⟩)
      ∧ (∀ w1 w2 req, redact w1 = redact w2 →
          (handler w1 req).response = (handler w2 req).response)
      ∧ (∀ w req, (handler w req).response.status = 500 →
          ∃ label ∈ errorLabels, (handler w req).response = ⟨500, errorBody label⟩)
      ∧ errorLabels.length = 6 ∧ errorLabels.Nodup
      ∧ (∀ label ∈ errorLabels, ∃ w req, (handler w req).response = ⟨500, errorBody label⟩) := by
  refine ⟨sendError_response, ?_, label_of_status_500, rfl, by decide, ?_⟩
  · intro w1 w2 req h
    rw [← handler_response_redact w1 req, ← handler_response_redact w2 req, h]
  · intro label hmem
    simp only [errorLabels, List.mem_cons, List.mem_singleton, List.not_mem_nil, or_false] at hmem
    rcases hmem with e | e | e | e | e | e <;> subst e
    · exact ⟨dirFailsWorld, sampleRequest, by decide⟩
    · exact ⟨noAudioWorld, sampleRequest, by decide⟩
    · exact ⟨downloadFailsWorld, sampleRequest, by decide⟩
    · exact ⟨noKeyWorld, sampleRequest, by decide⟩
    · exact ⟨transcriptionFailsWorld, sampleRequest, by decide⟩
    · exact ⟨nullReplyWorld, sampleRequest, by decide⟩

/-- An instance: a non-zero exit and a failed spawn differ in every detail and get the same 500 response. -/
theorem error_detail_stays_on_server_witness :
    redact downloadFailsWorld = redact spawnFailsWorld
      ∧ downloadFailsWorld.ytdlp ≠ spawnFailsWorld.ytdlp
      ∧ (handler downloadFailsWorld sampleRequest).response
          = (handler spawnFailsWorld sampleRequest).response
      ∧ (handler spawnFailsWorld sampleRequest).response.status = 500 :=
  ⟨rfl, by decide,
    error_detail_stays_on_server.2.1 downloadFailsWorld spawnFailsWorld sampleRequest rfl,
    by decide⟩

theorem label_mem_of_cover (labels : List String)
    (h : ∀ w req, (handler w req).response.status = 500 →
      ∃ label ∈ labels, (handler w req).response.body = errorBody label)
    (w : World) (req : Request) (label : String)
    (hw : (handler w req).response = ⟨500, errorBody label⟩) : label ∈ labels := by
  obtain ⟨l, hl, hb⟩ := h w req (by rw [hw])
  rw [hw] at hb
  simp [errorBody] at hb
  rw [hb]
  exact hl

/-- C7 as stated fails on the count: six different labels are reached as 500
bodies, so no five labels cover every 500 response. -/
theorem five_labels_do_not_cover :
    ¬ ∃ labels : List String, labels.length = 5 ∧
        ∀ w req, (handler w req).response.status = 500 →
          ∃ label ∈ labels, (handler w req).response.body = errorBody label := by
  rintro ⟨labels, hlen, h⟩
  have hsub : errorLabels ⊆ labels := by
    intro label hmem
    simp only [errorLabels, List.mem_cons, List.mem_singleton, List.not_mem_nil, or_false] at hmem
    rcases hmem with e | e | e | e | e | e <;> subst e
    · exact label_mem_of_cover labels h dirFailsWorld sampleRequest _ (by decide)
    · exact label_mem_of_cover labels h noAudioWorld sampleRequest _ (by decide)
    · exact label_mem_of_cover labels h downloadFailsWorld sampleRequest _ (by decide)
    · exact label_mem_of_cover labels h noKeyWorld sampleRequest _ (by decide)
    · exact label_mem_of_cover labels h transcriptionFailsWorld sampleRequest _ (by decide)
    · exact label_mem_of_cover labels h nullReplyWorld sampleRequest _ (by decide)
  have hnodup : errorLabels.Nodup := by decide
  have hle := (hnodup.subperm hsub).length_le
  have h6 : errorLabels.length = 6 := rfl
  omega

/-! ## Which URLs reach the downloader -/

theorem includesChars_iff (pat s : List Char) : includesChars pat s = true ↔ pat <:+: s := by
  induction s with
  | nil => simp [includesChars]
  | cons c cs ih =>
    rw [includesChars, Bool.or_eq_true, ih, List.infix_cons_iff, List.isPrefixOf_iff_prefix]

theorem hasVideoHost_iff (url : String) :
    hasVideoHost url ↔ ("youtube.com".data <:+: url.data ∨ "youtu.be".data <:+: url.data) := by
  unfold hasVideoHost includes
  rw [includesChars_iff, includesChars_iff]

/-- C8, as the code has it: every argument list the downloader is run with ends
in the request's `videoUrl`, a string that has `youtube.com` or `youtu.be`
somewhere in it (not necessarily in its host); and with the scratch directory
available every such string is handed to the downloader. -/
theorem downloader_url_has_host_substring (w : World) (req : Request) :
    (∀ args ∈ (handler w req).execs, ∃ url, req.videoUrl = .str url
        ∧ args = ["-f", "bestaudio", "-o", outTemplate, url]
        ∧ ("youtube.com".data <:+: url.data ∨ "youtu.be".data <:+: url.data))
      ∧ (∀ url, req.videoUrl = .str url →
          ("youtube.com".data <:+: url.data ∨ "youtu.be".data <:+: url.data) →
          (w.tmpExists = true ∨ w.mkdirError = none) →
          (handler w req).execs = [["-f", "bestaudio", "-o", outTemplate, url]]) := by
  constructor
  · intro args hargs
    by_cases hvalid : ∃ url, req.videoUrl = .str url ∧ hasVideoHost url
    · obtain ⟨url, hv, hh⟩ := hvalid
      refine ⟨url, hv, ?_, (hasVideoHost_iff url).1 hh⟩
      cases hp : (prepareDir w).2 with
      | some res =>
        rw [(handler_dir_error w req url hv hh res hp).2.1] at hargs
        simp at hargs
      | none =>
        cases hd : (download w url).2 with
        | error res =>
          rw [(handler_download_error w req url hv hh res hp hd).2.1] at hargs
          simpa using hargs
        | ok latestFile =>
          rw [(handler_selected w req url hv hh latestFile
            ((selectedFile_eq_some w url latestFile).2 ⟨hp, hd⟩)).2.1] at hargs
          simpa using hargs
    · have he := (handler_of_lacksVideoHost w req (lacksVideoHost_of_not_valid req hvalid)).2
      simp [Outcome.execs, he, calls, Effect.isCall] at hargs
  · intro url hv hsub hdir
    have hh := (hasVideoHost_iff url).2 hsub
    have hp := (prepareDir_snd_eq_none w).2 hdir
    cases hd : (download w url).2 with
    | error res => exact (handler_download_error w req url hv hh res hp hd).2.1
    | ok latestFile =>
      exact (handler_selected w req url hv hh latestFile
        ((selectedFile_eq_some w url latestFile).2 ⟨hp, hd⟩)).2.1

/-- An instance: a regular watch address is handed to the downloader. -/
theorem downloader_url_has_host_substring_witness :
    (requestFor (.str "https://www.youtube.com/watch?v=abc123")).videoUrl
        = .str "https://www.youtube.com/watch?v=abc123"
      ∧ "youtube.com".data <:+: "https://www.youtube.com/watch?v=abc123".data
      ∧ (handler happyWorld (requestFor (.str "https://www.youtube.com/watch?v=abc123"))).execs
          = [["-f", "bestaudio", "-o", outTemplate, "https://www.youtube.com/watch?v=abc123"]] :=
  ⟨rfl, (includesChars_iff _ _).1 (by decide),
    (downloader_url_has_host_substring happyWorld
        (requestFor (.str "https://www.youtube.com/watch?v=abc123"))).2
      "https://www.youtube.com/watch?v=abc123" rfl
      (Or.inl ((includesChars_iff _ _).1 (by decide))) (Or.inl rfl)⟩

/-- C8 as stated fails: the host of `https://evil.example/?q=youtube.com` is
`evil.example`, outside the allowed domains, yet the string passes validation
and is handed to the downloader. -/
theorem foreign_host_reaches_downloader :
    specUrlHost "https://evil.example/?q=youtube.com" = some "evil.example"
      ∧ specHostAllowed "evil.example" = false
      ∧ (handler happyWorld (requestFor (.str "https://evil.example/?q=youtube.com"))).execs
          = [["-f", "bestaudio", "-o", "tmp/audio-%(id)s.%(ext)s",
              "https://evil.example/?q=youtube.com"]] := by
  decide

end YtTranscript
